import Mathlib

/-!
# AgentHub — shallow embedding and verification

A shallow embedding of the core of the AgentHub agent-marketplace service
(`agenthub/app/services.py`, `rate_limit.py`, `auth.py`,
`routers/agents.py`, `models.py`) and proofs of the specified properties.

Python `float` values that the code only adds, multiplies and divides
(prices, latencies, reputation scores, timestamps) are embedded as `ℚ`;
Python `int` as `Int` or `Nat` where the column is a non-negative counter.
The JSON schema documents (`input_schema`, `output_schema`) and the
creation timestamp are opaque to every operation verified here and are
omitted from the record.
-/

/-- The `Agent` ORM row from `models.py` (the fields the core reads or
writes).  Counters are `Nat`: the columns default to `0` and are only ever
incremented. -/
structure Agent where
  id : Nat
  name : String
  skills : List String
  endpoint : String
  price_per_call : ℚ
  max_latency_ms : Int
  total_calls : Nat
  successful_calls : Nat
  failed_calls : Nat
  avg_latency : ℚ
  reputation_score : ℚ
  deriving Repr, DecidableEq

/-- The `CallLog` ORM row from `models.py` (id and timestamp omitted:
no verified operation reads them). -/
structure CallLogRec where
  agent_id : Nat
  success : Bool
  latency_ms : Option ℚ
  error_message : Option String
  deriving Repr, DecidableEq

/-- The relevant database state: the `agents` table and the `call_logs`
table, in insertion order. -/
structure DB where
  agents : List Agent
  call_logs : List CallLogRec
  deriving Repr, DecidableEq

/-- `services.update_reputation`: `reputation_score = successful_calls /
total_calls` when `total_calls > 0`, else `0`. -/
def update_reputation (agent : Agent) : Agent :=
  if agent.total_calls ≤ 0 then { agent with reputation_score := 0 }
  else { agent with
    reputation_score := (agent.successful_calls : ℚ) / (agent.total_calls : ℚ) }

/-- `services.apply_call_metrics`: bump the counters, fold an optional
latency sample into the running mean (using `previous_latency_samples`
when supplied, else the pre-update `total_calls`), then recompute the
reputation. -/
def apply_call_metrics (agent : Agent) (success : Bool)
    (latency_ms : Option ℚ) (previous_latency_samples : Option Int) : Agent :=
  let previous_total : Int := (agent.total_calls : Int)
  let a1 := { agent with total_calls := agent.total_calls + 1 }
  let a2 :=
    if success then { a1 with successful_calls := a1.successful_calls + 1 }
    else { a1 with failed_calls := a1.failed_calls + 1 }
  let a3 :=
    match latency_ms with
    | none => a2
    | some l =>
      let samples : Int := previous_latency_samples.getD previous_total
      if samples ≤ 0 then { a2 with avg_latency := l }
      else { a2 with
        avg_latency := (a2.avg_latency * (samples : ℚ) + l) / ((samples : ℚ) + 1) }
  update_reputation a3

/-- `services.log_call`: build a `CallLog` row. -/
def log_call (agent_id : Nat) (success : Bool) (latency_ms : Option ℚ)
    (error_message : Option String) : CallLogRec :=
  { agent_id, success, latency_ms, error_message }

/-- `routers.agents.register_agent`: a freshly registered agent carries the
payload fields and the column defaults — all counters `0`, `avg_latency`
`0.0`, `reputation_score` `0.0`. -/
def register_agent (id : Nat) (name : String) (skills : List String)
    (endpoint : String) (price_per_call : ℚ) (max_latency_ms : Int) : Agent :=
  { id, name, skills, endpoint, price_per_call, max_latency_ms,
    total_calls := 0, successful_calls := 0, failed_calls := 0,
    avg_latency := 0, reputation_score := 0 }

/-- One metrics event: the arguments of one `apply_call_metrics` call. -/
structure CallEvent where
  success : Bool
  latency_ms : Option ℚ
  previous_latency_samples : Option Int

/-- Fold a sequence of metrics events over an agent state. -/
def applyEvents (agent : Agent) (events : List CallEvent) : Agent :=
  events.foldl
    (fun a e => apply_call_metrics a e.success e.latency_ms e.previous_latency_samples)
    agent

lemma apply_call_metrics_total (a : Agent) (s : Bool) (l : Option ℚ)
    (p : Option Int) : (apply_call_metrics a s l p).total_calls = a.total_calls + 1 := by
  unfold apply_call_metrics update_reputation
  cases s <;> cases l <;> simp <;> split <;> simp

lemma apply_call_metrics_succ (a : Agent) (s : Bool) (l : Option ℚ)
    (p : Option Int) : (apply_call_metrics a s l p).successful_calls =
      a.successful_calls + (if s then 1 else 0) := by
  unfold apply_call_metrics update_reputation
  cases s <;> cases l <;> simp <;> split <;> simp

lemma apply_call_metrics_failed (a : Agent) (s : Bool) (l : Option ℚ)
    (p : Option Int) : (apply_call_metrics a s l p).failed_calls =
      a.failed_calls + (if s then 0 else 1) := by
  unfold apply_call_metrics update_reputation
  cases s <;> cases l <;> simp <;> split <;> simp

lemma apply_call_metrics_rep (a : Agent) (s : Bool) (l : Option ℚ)
    (p : Option Int) : (apply_call_metrics a s l p).reputation_score =
      ((apply_call_metrics a s l p).successful_calls : ℚ) /
        ((apply_call_metrics a s l p).total_calls : ℚ) := by
  unfold apply_call_metrics update_reputation
  cases s <;> cases l <;> simp <;> split <;> simp

/-- The counter invariant of the spec's data model. -/
def countersOk (a : Agent) : Prop :=
  a.total_calls = a.successful_calls + a.failed_calls

/-- The reputation invariant of the spec's data model. -/
def reputationOk (a : Agent) : Prop :=
  (0 < a.total_calls →
    a.reputation_score = (a.successful_calls : ℚ) / (a.total_calls : ℚ)) ∧
  (a.total_calls = 0 → a.reputation_score = 0)

lemma countersOk_step (a : Agent) (s : Bool) (l : Option ℚ) (p : Option Int)
    (h : countersOk a) : countersOk (apply_call_metrics a s l p) := by
  unfold countersOk at h ⊢
  rw [apply_call_metrics_total, apply_call_metrics_succ, apply_call_metrics_failed, h]
  cases s <;> simp <;> omega

lemma countersOk_events (a : Agent) (events : List CallEvent)
    (h : countersOk a) : countersOk (applyEvents a events) := by
  induction events generalizing a with
  | nil => exact h
  | cons e es ih => exact ih _ (countersOk_step a e.success e.latency_ms
      e.previous_latency_samples h)

lemma reputationOk_step (a : Agent) (s : Bool) (l : Option ℚ) (p : Option Int) :
    reputationOk (apply_call_metrics a s l p) := by
  constructor
  · intro _
    exact apply_call_metrics_rep a s l p
  · intro h0
    rw [apply_call_metrics_total a s l p] at h0
    omega

lemma reputationOk_events (a : Agent) (events : List CallEvent)
    (h : reputationOk a) : reputationOk (applyEvents a events) := by
  induction events generalizing a with
  | nil => exact h
  | cons e es ih => exact ih _ (reputationOk_step a e.success e.latency_ms
      e.previous_latency_samples)

/-- Python `int(x)` on a rational: truncation toward zero. -/
def pyTrunc (q : ℚ) : Int :=
  if 0 ≤ q then ⌊q⌋ else ⌈q⌉

/-- The `while bucket and (now - bucket[0]) > window_seconds: popleft()`
loop of `InMemoryRateLimiter.allow`: drop timestamps older than the window
from the front of the deque. -/
def pruneBucket (now window : ℚ) : List ℚ → List ℚ
  | [] => []
  | t :: rest =>
    if now - t > window then pruneBucket now window rest else t :: rest

/-- `rate_limit.InMemoryRateLimiter`: capacity, window and the per-key
deque store (`defaultdict(deque)`, modelled as an association list whose
absent keys read as `[]`). -/
structure InMemoryRateLimiter where
  max_requests : Int
  window_seconds : Int
  store : List (String × List ℚ)
  deriving Repr, DecidableEq

/-- Read a key's deque out of the `defaultdict` store. -/
def getBucket (store : List (String × List ℚ)) (key : String) : List ℚ :=
  match store.find? (fun p => p.1 == key) with
  | some p => p.2
  | none => []

/-- Write a key's deque back into the store. -/
def setBucket (store : List (String × List ℚ)) (key : String)
    (bucket : List ℚ) : List (String × List ℚ) :=
  if store.any (fun p => p.1 == key) then
    store.map (fun p => if p.1 == key then (key, bucket) else p)
  else store ++ [(key, bucket)]

/-- `InMemoryRateLimiter.allow`: prune the key's deque, reject with a
retry-after when it is at capacity, otherwise append `now` and admit.
Returns `some (admitted, retry_after, new limiter state)`.  The
retry-after in the reject branch is
`max(1, int(window_seconds - (now - bucket[0])))` — Python `int()`
truncation, embedded by `pyTrunc`.  In the reject branch the code reads
`bucket[0]`; on an empty deque (reachable only when `max_requests ≤ 0`)
that raises `IndexError`, embedded as `none`. -/
def InMemoryRateLimiter.allow (rl : InMemoryRateLimiter) (key : String)
    (now : ℚ) : Option (Bool × Int × InMemoryRateLimiter) :=
  let bucket := pruneBucket now (rl.window_seconds : ℚ) (getBucket rl.store key)
  if rl.max_requests ≤ (bucket.length : Int) then
    match bucket with
    | [] => none
    | oldest :: _ =>
      some (false, max 1 (pyTrunc ((rl.window_seconds : ℚ) - (now - oldest))),
        { rl with store := setBucket rl.store key bucket })
  else
    some (true, 0, { rl with store := setBucket rl.store key (bucket ++ [now]) })

/-- `auth.get_api_key`: reject (`None`) when the header is absent or falsy
(Python truthiness: the empty string is falsy) or does not equal the
configured secret (`secrets.compare_digest` is equality on strings); else
return the key. -/
def get_api_key (api_key : Option String) (expected : String) : Option String :=
  match api_key with
  | none => none
  | some k => if k = "" then none else if k = expected then some k else none

/-- The `latency_sort_value` helper of `search_agents`: `avg_latency` when
positive, else `float("inf")` — embedded as `Option ℚ` with `none` playing
`+∞`. -/
def latency_sort_value (agent : Agent) : Option ℚ :=
  if agent.avg_latency > 0 then some agent.avg_latency else none

/-- Order on latency sort values: `none` is `+∞`. -/
def latValLE : Option ℚ → Option ℚ → Bool
  | _, none => true
  | none, some _ => false
  | some x, some y => decide (x ≤ y)

/-- The composite sort key of `search_agents` as a total preorder:
lexicographic `(-reputation_score, price_per_call, latency_sort_value)`,
ascending — exactly Python's tuple comparison for the key lambda. -/
def searchKeyLE (a b : Agent) : Bool :=
  if a.reputation_score = b.reputation_score then
    if a.price_per_call = b.price_per_call then
      latValLE (latency_sort_value a) (latency_sort_value b)
    else decide (a.price_per_call ≤ b.price_per_call)
  else decide (b.reputation_score < a.reputation_score)

/-- `routers.agents.search_agents`: apply the optional filters
(`if skill:` is Python truthiness, so an absent *or empty* skill applies
no filter; `skill in (agent.skills or [])` is list membership), then
stable-sort by the composite key (`list.sort` is a stable merge sort). -/
def search_agents (agents : List Agent) (skill : Option String)
    (max_price : Option ℚ) (min_score : Option ℚ) : List Agent :=
  let step1 : List Agent :=
    match skill with
    | some s => if s = "" then agents else agents.filter (fun a => a.skills.contains s)
    | none => agents
  let step2 : List Agent :=
    match max_price with
    | some mp => step1.filter (fun a => decide (a.price_per_call ≤ mp))
    | none => step1
  let step3 : List Agent :=
    match min_score with
    | some ms => step2.filter (fun a => decide (ms ≤ a.reputation_score))
    | none => step2
  step3.mergeSort searchKeyLE

/-- Outcome of the one outbound request of `call_agent`, as classified by
the handler: an HTTP response (status code, whether `.json()` parses), a
timeout (`httpx.TimeoutException`), or any other transport failure
(`httpx.RequestError`). -/
inductive UpstreamResult where
  | response (status_code : Nat) (json_parseable : Bool)
  | timeout
  | unreachable
  deriving Repr, DecidableEq

/-- The caller-visible outcome of an endpoint: a 200 `CallAgentResponse`
or a raised `HTTPException (status_code, detail)`. -/
inductive CallResult where
  | ok (agent_id : Nat) (latency_ms : ℚ)
  | httpError (status_code : Nat) (detail : String)
  deriving Repr, DecidableEq

/-- `db.get(Agent, agent_id)`. -/
def findAgent (db : DB) (agent_id : Nat) : Option Agent :=
  db.agents.find? (fun a => a.id == agent_id)

/-- The `latency_sample_count` query of `call_agent`: the number of this
agent's CallLogs whose `latency_ms` is not NULL. -/
def latency_sample_count (db : DB) (agent_id : Nat) : Nat :=
  (db.call_logs.filter (fun l => l.agent_id == agent_id && l.latency_ms.isSome)).length

/-- Persist the in-place mutation of an agent row. -/
def updateAgent (db : DB) (a : Agent) : DB :=
  { db with agents := db.agents.map (fun x => if x.id == a.id then a else x) }

/-- One `db.add(log) ; db.commit()` after a metrics mutation: the agent row
is updated and the log row appended, atomically. -/
def commitCall (db : DB) (a : Agent) (log : CallLogRec) : DB :=
  { agents := (updateAgent db a).agents, call_logs := db.call_logs ++ [log] }

/-- `routers.agents.call_agent`, given the classified upstream outcome and
the elapsed wall-clock latency in ms: 404 on an unknown agent (no state
change); otherwise classify, apply exactly one `apply_call_metrics` (with
`previous_latency_samples` = the non-NULL-latency log count) and append
exactly one CallLog, then surface 200/502/504. -/
def call_agent (db : DB) (agent_id : Nat) (upstream : UpstreamResult)
    (elapsed_ms : ℚ) : CallResult × DB :=
  match findAgent db agent_id with
  | none => (.httpError 404 "Agent not found.", db)
  | some agent =>
    let n : Nat := latency_sample_count db agent.id
    match upstream with
    | .response status_code json_parseable =>
      if 400 ≤ status_code then
        let msg := "Agent returned HTTP " ++ toString status_code ++ "."
        let agent1 := apply_call_metrics agent false (some elapsed_ms) (some (n : Int))
        (.httpError 502 msg,
          commitCall db agent1 (log_call agent.id false (some elapsed_ms) (some msg)))
      else if !json_parseable then
        let msg := "Agent returned a non-JSON response."
        let agent1 := apply_call_metrics agent false (some elapsed_ms) (some (n : Int))
        (.httpError 502 msg,
          commitCall db agent1 (log_call agent.id false (some elapsed_ms) (some msg)))
      else
        let agent1 := apply_call_metrics agent true (some elapsed_ms) (some (n : Int))
        (.ok agent.id elapsed_ms,
          commitCall db agent1 (log_call agent.id true (some elapsed_ms) none))
    | .timeout =>
      let msg := "Agent call timed out."
      let agent1 := apply_call_metrics agent false (some elapsed_ms) (some (n : Int))
      (.httpError 504 msg,
        commitCall db agent1 (log_call agent.id false (some elapsed_ms) (some msg)))
    | .unreachable =>
      let msg := "Failed to reach agent endpoint."
      let agent1 := apply_call_metrics agent false (some elapsed_ms) (some (n : Int))
      (.httpError 502 msg,
        commitCall db agent1 (log_call agent.id false (some elapsed_ms) (some msg)))

/-- `routers.agents.report_result`: 404 on an unknown agent; otherwise one
`apply_call_metrics` with no latency and one CallLog with NULL latency. -/
def report_result (db : DB) (agent_id : Nat) (success : Bool) :
    Except (Nat × String) Agent × DB :=
  match findAgent db agent_id with
  | none => (.error (404, "Agent not found."), db)
  | some agent =>
    let agent1 := apply_call_metrics agent success none none
    (.ok agent1, commitCall db agent1 (log_call agent.id success none none))

/-- The `/agents/call` route with its dependencies, in dependency order:
`get_api_key`, then `enforce_rate_limit` (which mutates the limiter even
on a rejected attempt — pruning persists), then the handler.  Local
rejections (401, 429, 404) leave the database untouched.  An `IndexError`
escaping `allow` propagates as an unhandled exception (`none`). -/
def call_endpoint (api_key : Option String) (expected : String)
    (rl : InMemoryRateLimiter) (now : ℚ) (db : DB) (agent_id : Nat)
    (upstream : UpstreamResult) (elapsed_ms : ℚ) :
    Option (CallResult × InMemoryRateLimiter × DB) :=
  match get_api_key api_key expected with
  | none => some (.httpError 401 "Invalid or missing API key.", rl, db)
  | some key =>
    match rl.allow key now with
    | none => none
    | some res =>
      if res.1 then
        let out := call_agent db agent_id upstream elapsed_ms
        some (out.1, res.2.2, out.2)
      else
        some (.httpError 429 "Rate limit exceeded.", res.2.2, db)

/-- Modelled from the spec: the `DELETE /agents/{agent_id}` handler is not
present under `src/` (only its tests are).  Per spec §3 and §6, deletion of
an existing agent removes the agent row and cascades deletion of all its
CallLogs (`cascade="all, delete-orphan"` in `models.py`), returning a
removal confirmation; an unknown agent id fails with 404 not-found. -/
def delete_agent (db : DB) (agent_id : Nat) : Except (Nat × String) DB :=
  match findAgent db agent_id with
  | none => .error (404, "Agent not found.")
  | some _ =>
    .ok { agents := db.agents.filter (fun a => a.id != agent_id),
          call_logs := db.call_logs.filter (fun l => l.agent_id != agent_id) }

/-- C1: one application of `apply_call_metrics` preserves
`total_calls = successful_calls + failed_calls`; hence the invariant holds
for every agent state reachable from the zeroed registration state through
any sequence of metrics updates. -/
theorem c1_counters_invariant :
    (∀ (a : Agent) (s : Bool) (l : Option ℚ) (p : Option Int),
      countersOk a → countersOk (apply_call_metrics a s l p)) ∧
    (∀ (id : Nat) (name : String) (skills : List String) (endpoint : String)
      (price : ℚ) (maxlat : Int) (events : List CallEvent),
      countersOk (applyEvents
        (register_agent id name skills endpoint price maxlat) events)) := by
  constructor
  · exact countersOk_step
  · intro id name skills endpoint price maxlat events
    exact countersOk_events _ events rfl

/-- Witness for C1 at a concrete state: the zeroed agent satisfies the
invariant and one successful update preserves it. -/
theorem c1_counters_invariant_witness :
    countersOk (apply_call_metrics
      (register_agent 1 "a" ["s"] "http://x" 0 100) true (some 5) none) :=
  c1_counters_invariant.1 (register_agent 1 "a" ["s"] "http://x" 0 100)
    true (some 5) none rfl

/-- C2: every reachable agent state satisfies
`reputation_score = successful_calls / total_calls` when `total_calls > 0`
and `reputation_score = 0` when `total_calls = 0`; and every single
application of `apply_call_metrics`, whatever the success flag and whether
or not a latency is supplied, recomputes the score as that quotient. -/
theorem c2_reputation_invariant :
    (∀ (id : Nat) (name : String) (skills : List String) (endpoint : String)
      (price : ℚ) (maxlat : Int) (events : List CallEvent),
      reputationOk (applyEvents
        (register_agent id name skills endpoint price maxlat) events)) ∧
    (∀ (a : Agent) (s : Bool) (l : Option ℚ) (p : Option Int),
      (apply_call_metrics a s l p).reputation_score =
        ((apply_call_metrics a s l p).successful_calls : ℚ) /
          ((apply_call_metrics a s l p).total_calls : ℚ)) := by
  constructor
  · intro id name skills endpoint price maxlat events
    refine reputationOk_events _ events ⟨fun h => absurd h (by simp [register_agent]), fun _ => rfl⟩
  · exact apply_call_metrics_rep

lemma apply_call_metrics_id (a : Agent) (s : Bool) (l : Option ℚ)
    (p : Option Int) : (apply_call_metrics a s l p).id = a.id := by
  unfold apply_call_metrics update_reputation
  cases s <;> cases l <;> simp <;> split <;> simp

lemma apply_call_metrics_avg_none (a : Agent) (s : Bool) (p : Option Int) :
    (apply_call_metrics a s none p).avg_latency = a.avg_latency := by
  unfold apply_call_metrics update_reputation
  cases s <;> simp

lemma apply_call_metrics_avg_some (a : Agent) (s : Bool) (l : ℚ) (m : Int) :
    (apply_call_metrics a s (some l) (some m)).avg_latency =
      if m ≤ 0 then l
      else (a.avg_latency * (m : ℚ) + l) / ((m : ℚ) + 1) := by
  unfold apply_call_metrics update_reputation
  cases s <;> simp <;> split <;> split <;> simp_all

lemma find?_map_update (l : List Agent) (aid : Nat) (a a1 : Agent)
    (hf : l.find? (fun x => x.id == aid) = some a) (hid : a1.id = a.id) :
    (l.map (fun x => if x.id == a1.id then a1 else x)).find?
      (fun x => x.id == aid) = some a1 := by
  have haid : a.id = aid := by
    have := List.find?_some hf
    simpa using this
  induction l with
  | nil => simp at hf
  | cons x xs ih =>
    by_cases hx : x.id = aid
    · have hfx : x = a := by
        have : (x :: xs).find? (fun y => y.id == aid) = some x :=
          List.find?_cons_of_pos _ (by simpa using hx)
        rw [this] at hf
        exact Option.some_inj.mp hf
      subst hfx
      simp only [List.map_cons]
      rw [if_pos (by simpa using (hid.trans hx).symm ▸ hx ▸ rfl)]
      exact List.find?_cons_of_pos _ (by simp [hid, hx])
    · have hstep : (x :: xs).find? (fun y => y.id == aid) = xs.find? (fun y => y.id == aid) :=
        List.find?_cons_of_neg _ (by simpa using hx)
      rw [hstep] at hf
      simp only [List.map_cons]
      rw [if_neg (by simpa [hid, haid] using hx)]
      rw [List.find?_cons_of_neg _ (by simpa using hx)]
      exact ih hf

lemma findAgent_commitCall (db : DB) (aid : Nat) (a a1 : Agent)
    (log : CallLogRec) (hf : findAgent db aid = some a) (hid : a1.id = a.id) :
    findAgent (commitCall db a1 log) aid = some a1 := by
  unfold findAgent commitCall updateAgent at *
  exact find?_map_update db.agents aid a a1 hf hid

lemma report_result_step (db : DB) (aid : Nat) (a : Agent) (s : Bool)
    (hf : findAgent db aid = some a) :
    (report_result db aid s).1 = .ok (apply_call_metrics a s none none) ∧
    findAgent (report_result db aid s).2 aid =
      some (apply_call_metrics a s none none) ∧
    (report_result db aid s).2.call_logs =
      db.call_logs ++ [log_call a.id s none none] := by
  unfold report_result
  rw [hf]
  refine ⟨rfl, ?_, rfl⟩
  exact findAgent_commitCall db aid a _ _ hf (apply_call_metrics_id a s none none)

/-- C8: three reports `(success, success, failure)` on a fresh agent yield
`total_calls = 3`, `successful_calls = 2`, `failed_calls = 1`,
`reputation_score = 2/3`, and `avg_latency` still `0`; and in general a
report passes no latency, so the reported agent's `avg_latency` is
unchanged. -/
theorem c8_report_path :
    (∀ (db : DB) (aid : Nat) (a : Agent),
      findAgent db aid = some a →
      a.total_calls = 0 → a.successful_calls = 0 → a.failed_calls = 0 →
      a.avg_latency = 0 →
      ∃ a3 : Agent,
        findAgent (report_result (report_result
          (report_result db aid true).2 aid true).2 aid false).2 aid = some a3 ∧
        a3.total_calls = 3 ∧ a3.successful_calls = 2 ∧ a3.failed_calls = 1 ∧
        a3.reputation_score = 2 / 3 ∧ a3.avg_latency = 0) ∧
    (∀ (db : DB) (aid : Nat) (a : Agent) (s : Bool),
      findAgent db aid = some a →
      ∃ a1 : Agent, findAgent (report_result db aid s).2 aid = some a1 ∧
        a1.avg_latency = a.avg_latency) := by
  constructor
  · intro db aid a hf h0 h1 h2 h3
    obtain ⟨-, hfind1, -⟩ := report_result_step db aid a true hf
    obtain ⟨-, hfind2, -⟩ := report_result_step _ aid _ true hfind1
    obtain ⟨-, hfind3, -⟩ := report_result_step _ aid _ false hfind2
    refine ⟨_, hfind3, ?_, ?_, ?_, ?_, ?_⟩
    · simp [apply_call_metrics_total, h0]
    · simp [apply_call_metrics_succ, h1]
    · simp [apply_call_metrics_failed, h2]
    · rw [apply_call_metrics_rep]
      simp [apply_call_metrics_total, apply_call_metrics_succ, h0, h1]
    · simp [apply_call_metrics_avg_none, h3]
  · intro db aid a s hf
    obtain ⟨-, hfind1, -⟩ := report_result_step db aid a s hf
    exact ⟨_, hfind1, apply_call_metrics_avg_none a s none⟩

/-- Witness for C8: the scenario run on a concrete fresh agent. -/
theorem c8_report_path_witness :
    (∃ a3 : Agent,
      findAgent (report_result (report_result
        (report_result ⟨[register_agent 7 "demo" ["t"] "http://d" 1 500], []⟩
          7 true).2 7 true).2 7 false).2 7 = some a3 ∧
      a3.total_calls = 3 ∧ a3.successful_calls = 2 ∧ a3.failed_calls = 1 ∧
      a3.reputation_score = 2 / 3 ∧ a3.avg_latency = 0) :=
  c8_report_path.1 ⟨[register_agent 7 "demo" ["t"] "http://d" 1 500], []⟩ 7
    (register_agent 7 "demo" ["t"] "http://d" 1 500) rfl rfl rfl rfl rfl

/-- C7: a timed-out call on an existing agent increments `failed_calls` and
`total_calls` by exactly one, leaves `successful_calls` unchanged, and
folds the measured elapsed time into `avg_latency` using `n` = the count of
the agent's prior CallLogs with a non-NULL latency (`latency_sample_count`,
not the total call count): the new mean is the sample itself when `n = 0`,
else `(avg_latency * n + latency) / (n + 1)`. -/
theorem c7_timeout_metrics (db : DB) (aid : Nat) (a : Agent) (elapsed : ℚ)
    (hf : findAgent db aid = some a) :
    ∃ a1 : Agent,
      findAgent (call_agent db aid .timeout elapsed).2 aid = some a1 ∧
      a1.failed_calls = a.failed_calls + 1 ∧
      a1.total_calls = a.total_calls + 1 ∧
      a1.successful_calls = a.successful_calls ∧
      a1.avg_latency =
        (if latency_sample_count db a.id = 0 then elapsed
         else (a.avg_latency * (latency_sample_count db a.id : ℚ) + elapsed) /
           ((latency_sample_count db a.id : ℚ) + 1)) := by
  unfold call_agent
  rw [hf]
  simp only
  refine ⟨_, findAgent_commitCall db aid a _ _ hf
    (apply_call_metrics_id a false (some elapsed) _), ?_, ?_, ?_, ?_⟩
  · rw [apply_call_metrics_failed]
    simp
  · exact apply_call_metrics_total a false (some elapsed) _
  · rw [apply_call_metrics_succ]
    simp
  · rw [apply_call_metrics_avg_some]
    rcases Nat.eq_zero_or_pos (latency_sample_count db a.id) with h | h
    · simp [h]
    · rw [if_neg (by omega), if_neg (by omega)]
      push_cast
      ring_nf

/-- Witness for C7: a concrete agent with one prior latency-bearing log;
the timed-out call folds the elapsed 100 ms into the mean with `n = 1`. -/
theorem c7_timeout_metrics_witness :
    ∃ a1 : Agent,
      findAgent (call_agent
        ⟨[{ register_agent 1 "w" [] "http://w" 0 200 with
              total_calls := 2, successful_calls := 1, failed_calls := 1,
              avg_latency := 50, reputation_score := 1/2 }],
          [log_call 1 true (some 50) none, log_call 1 false none none]⟩
        1 .timeout 100).2 1 = some a1 ∧
      a1.failed_calls = 1 + 1 ∧
      a1.total_calls = 2 + 1 ∧
      a1.successful_calls = 1 ∧
      a1.avg_latency = (if (1 : Nat) = 0 then (100 : ℚ) else ((50 : ℚ) * (1 : ℚ) + 100) / ((1 : ℚ) + 1)) := by
  have h := c7_timeout_metrics
    ⟨[{ register_agent 1 "w" [] "http://w" 0 200 with
          total_calls := 2, successful_calls := 1, failed_calls := 1,
          avg_latency := 50, reputation_score := 1/2 }],
      [log_call 1 true (some 50) none, log_call 1 false none none]⟩
    1
    { register_agent 1 "w" [] "http://w" 0 200 with
        total_calls := 2, successful_calls := 1, failed_calls := 1,
        avg_latency := 50, reputation_score := 1/2 }
    100 rfl
  simpa [latency_sample_count, log_call, register_agent] using h

/-- C9: deleting an existing agent succeeds and removes the agent row and
every one of its CallLogs (subsequent lookup returns not-found); deleting
an unknown agent id fails with a 404 not-found error. -/
theorem c9_delete_cascade :
    (∀ (db : DB) (aid : Nat) (a : Agent), findAgent db aid = some a →
      ∃ db1 : DB, delete_agent db aid = .ok db1 ∧
        findAgent db1 aid = none ∧
        db1.call_logs.filter (fun l => l.agent_id == aid) = []) ∧
    (∀ (db : DB) (aid : Nat), findAgent db aid = none →
      delete_agent db aid = .error (404, "Agent not found.")) := by
  constructor
  · intro db aid a hf
    unfold delete_agent
    rw [hf]
    refine ⟨_, rfl, ?_, ?_⟩
    · unfold findAgent
      simp only [List.find?_eq_none, List.mem_filter]
      intro x hx
      simpa using hx.2
    · simp only [List.filter_eq_nil_iff, List.mem_filter]
      intro x hx
      simpa using hx.2
  · intro db aid hf
    unfold delete_agent
    rw [hf]

/-- Witness for C9: deletion of a present agent with a log, and a 404 on an
unknown id. -/
theorem c9_delete_cascade_witness :
    (∃ db1 : DB,
      delete_agent ⟨[register_agent 1 "a" [] "http://a" 0 100],
        [log_call 1 true (some 5) none]⟩ 1 = .ok db1 ∧
      findAgent db1 1 = none ∧
      db1.call_logs.filter (fun l => l.agent_id == 1) = []) ∧
    delete_agent ⟨[], []⟩ 999999 = .error (404, "Agent not found.") :=
  ⟨c9_delete_cascade.1 ⟨[register_agent 1 "a" [] "http://a" 0 100],
      [log_call 1 true (some 5) none]⟩ 1
      (register_agent 1 "a" [] "http://a" 0 100) rfl,
    c9_delete_cascade.2 ⟨[], []⟩ 999999 rfl⟩

lemma pruneBucket_head (now w : ℚ) (b : List ℚ) (t : ℚ) (rest : List ℚ)
    (h : pruneBucket now w b = t :: rest) : ¬ now - t > w := by
  induction b with
  | nil => simp [pruneBucket] at h
  | cons x xs ih =>
    unfold pruneBucket at h
    split at h
    · exact ih h
    · rename_i hcond
      obtain ⟨rfl, -⟩ : x = t ∧ xs = rest := by
        constructor <;> injection h
      exact hcond

/-- C6: with `max_requests = 2` and `window_seconds = 60` and three calls
on the same key at non-decreasing times inside one window, the first two
calls are admitted (each appending its timestamp to the key's deque), the
third is rejected with `retry_after ≥ 1`, and the rejected call does not
append to the deque. -/
theorem c6_rate_limit_scenario (key : String) (t1 t2 t3 : ℚ)
    (_h12 : t1 ≤ t2) (h23 : t2 ≤ t3) (hw : t3 - t1 ≤ 60) :
    InMemoryRateLimiter.allow ⟨2, 60, []⟩ key t1
      = some (true, 0, ⟨2, 60, [(key, [t1])]⟩) ∧
    InMemoryRateLimiter.allow ⟨2, 60, [(key, [t1])]⟩ key t2
      = some (true, 0, ⟨2, 60, [(key, [t1, t2])]⟩) ∧
    ∃ retry : Int, 1 ≤ retry ∧
      InMemoryRateLimiter.allow ⟨2, 60, [(key, [t1, t2])]⟩ key t3
        = some (false, retry, ⟨2, 60, [(key, [t1, t2])]⟩) := by
  have hp2 : ¬ t2 - t1 > (60 : ℚ) := by linarith
  have hp3 : ¬ t3 - t1 > (60 : ℚ) := by linarith
  refine ⟨?_, ?_, max 1 (pyTrunc (((60 : Int) : ℚ) - (t3 - t1))),
    le_max_left _ _, ?_⟩
  · simp [InMemoryRateLimiter.allow, getBucket, setBucket, pruneBucket]
  · simp [InMemoryRateLimiter.allow, getBucket, setBucket, pruneBucket, hp2]
  · simp [InMemoryRateLimiter.allow, getBucket, setBucket, pruneBucket, hp3]

/-- Witness for C6 at concrete times 0, 1, 2. -/
theorem c6_rate_limit_scenario_witness :
    InMemoryRateLimiter.allow ⟨2, 60, []⟩ "k" 0
      = some (true, 0, ⟨2, 60, [("k", [0])]⟩) ∧
    InMemoryRateLimiter.allow ⟨2, 60, [("k", [0])]⟩ "k" 1
      = some (true, 0, ⟨2, 60, [("k", [0, 1])]⟩) ∧
    ∃ retry : Int, 1 ≤ retry ∧
      InMemoryRateLimiter.allow ⟨2, 60, [("k", [0, 1])]⟩ "k" 2
        = some (false, retry, ⟨2, 60, [("k", [0, 1])]⟩) :=
  c6_rate_limit_scenario "k" 0 1 2 (by norm_num) (by norm_num) (by norm_num)

/-- Counterexample to C5 as stated: a limiter with `max_requests = 1`,
`window_seconds = 60` and one admission at time `0`, probed at time `1/2`,
rejects with `retry_after = 59` (leaving the deque unchanged), while
`max(1, ceil(window_seconds - (now - oldest))) = max(1, ceil(59.5)) = 60`. -/
theorem c5_retry_after_counterexample :
    InMemoryRateLimiter.allow ⟨1, 60, [("k", [0])]⟩ "k" (1/2)
      = some (false, 59, ⟨1, 60, [("k", [0])]⟩) ∧
    max 1 ⌈(60 : ℚ) - (1/2 - 0)⌉ = 60 := by
  constructor
  · simp [InMemoryRateLimiter.allow, getBucket, setBucket, pruneBucket, pyTrunc]
    norm_num
  · norm_num [Int.ceil_eq_iff]

/-- C5 (amended): whenever `allow(key)` returns a rejection — i.e. after
pruning, the key's deque is non-empty and still holds at least
`max_requests` entries — the returned `retry_after` equals
`max(1, floor(window_seconds - (now - oldest_remaining_timestamp)))`:
Python `int()` truncation of a non-negative quantity, not the ceiling. -/
theorem c5_retry_after_floor (rl : InMemoryRateLimiter) (key : String)
    (now : ℚ) (oldest : ℚ) (rest : List ℚ)
    (res : Bool × Int × InMemoryRateLimiter)
    (hcall : rl.allow key now = some res) (hrej : res.1 = false)
    (hb : pruneBucket now (rl.window_seconds : ℚ) (getBucket rl.store key)
      = oldest :: rest) :
    res.2.1 = max 1 ⌊(rl.window_seconds : ℚ) - (now - oldest)⌋ := by
  have hnn : 0 ≤ (rl.window_seconds : ℚ) - (now - oldest) := by
    have := pruneBucket_head now (rl.window_seconds : ℚ)
      (getBucket rl.store key) oldest rest hb
    linarith [not_lt.mp this]
  unfold InMemoryRateLimiter.allow at hcall
  rw [hb] at hcall
  by_cases hc : rl.max_requests ≤ ((oldest :: rest).length : Int)
  · rw [if_pos hc] at hcall
    have heq := Option.some_inj.mp hcall
    rw [← heq]
    simp only [pyTrunc, if_pos hnn]
  · rw [if_neg hc] at hcall
    have heq := Option.some_inj.mp hcall
    rw [← heq] at hrej
    simp at hrej

/-- Witness for the amended C5: the counterexample scenario, where the
floor formula gives exactly the returned `59`. -/
theorem c5_retry_after_floor_witness :
    ((false, 59, (⟨1, 60, [("k", [0])]⟩ : InMemoryRateLimiter)) :
      Bool × Int × InMemoryRateLimiter).2.1
      = max 1 ⌊((60 : Int) : ℚ) - (1/2 - 0)⌋ := by
  refine c5_retry_after_floor ⟨1, 60, [("k", [0])]⟩ "k" (1/2) 0 []
    (false, 59, ⟨1, 60, [("k", [0])]⟩) ?_ rfl ?_
  · simp [InMemoryRateLimiter.allow, getBucket, setBucket, pruneBucket, pyTrunc]
    norm_num
  · simp [getBucket, pruneBucket]
    norm_num

/-- C3: on an existing agent, every one of the five upstream outcomes
(success, HTTP status ≥ 400, non-parseable body, timeout, unreachable)
produces exactly one `apply_call_metrics` update and exactly one CallLog
append — the new database state is one `commitCall` of one metrics update
and one appended log — before the caller-visible response; conversely the
local rejections (unknown agent id, auth failure, rate-limit rejection)
leave the database — metrics and logs — untouched. -/
theorem c3_outcome_accounting :
    (∀ (db : DB) (aid : Nat) (a : Agent) (up : UpstreamResult) (elapsed : ℚ),
      findAgent db aid = some a →
      ∃ (s : Bool) (lmsg : Option String),
        (call_agent db aid up elapsed).2 =
          commitCall db
            (apply_call_metrics a s (some elapsed)
              (some (latency_sample_count db a.id : Int)))
            (log_call a.id s (some elapsed) lmsg) ∧
        (call_agent db aid up elapsed).2.call_logs.length
          = db.call_logs.length + 1) ∧
    (∀ (db : DB) (aid : Nat) (up : UpstreamResult) (elapsed : ℚ),
      findAgent db aid = none →
      call_agent db aid up elapsed = (.httpError 404 "Agent not found.", db)) ∧
    (∀ (api_key : Option String) (expected : String)
      (rl : InMemoryRateLimiter) (now : ℚ) (db : DB) (aid : Nat)
      (up : UpstreamResult) (elapsed : ℚ),
      get_api_key api_key expected = none →
      call_endpoint api_key expected rl now db aid up elapsed =
        some (.httpError 401 "Invalid or missing API key.", rl, db)) ∧
    (∀ (key expected : String) (rl rl1 : InMemoryRateLimiter) (now : ℚ)
      (retry : Int) (db : DB) (aid : Nat) (up : UpstreamResult) (elapsed : ℚ),
      get_api_key (some key) expected = some key →
      rl.allow key now = some (false, retry, rl1) →
      call_endpoint (some key) expected rl now db aid up elapsed =
        some (.httpError 429 "Rate limit exceeded.", rl1, db)) := by
  refine ⟨?_, ?_, ?_, ?_⟩
  · intro db aid a up elapsed hf
    cases up with
    | response code parseable =>
      by_cases hcode : 400 ≤ code
      · refine ⟨false, some ("Agent returned HTTP " ++ toString code ++ "."), ?_, ?_⟩ <;>
          simp [call_agent, hf, hcode, commitCall]
      · cases parseable with
        | false =>
          refine ⟨false, some "Agent returned a non-JSON response.", ?_, ?_⟩ <;>
            simp [call_agent, hf, hcode, commitCall]
        | true =>
          refine ⟨true, none, ?_, ?_⟩ <;>
            simp [call_agent, hf, hcode, commitCall]
    | timeout =>
      refine ⟨false, some "Agent call timed out.", ?_, ?_⟩ <;>
        simp [call_agent, hf, commitCall]
    | unreachable =>
      refine ⟨false, some "Failed to reach agent endpoint.", ?_, ?_⟩ <;>
        simp [call_agent, hf, commitCall]
  · intro db aid up elapsed hf
    simp [call_agent, hf]
  · intro api_key expected rl now db aid up elapsed hauth
    simp [call_endpoint, hauth]
  · intro key expected rl rl1 now retry db aid up elapsed hauth hallow
    simp [call_endpoint, hauth, hallow]

/-- Witness for C3: a timeout on a present agent appends one log and
updates once; a 404, a 401 and a genuine 429 (full one-entry deque at
capacity 1) leave the database unchanged. -/
theorem c3_outcome_accounting_witness :
    (∃ (s : Bool) (lmsg : Option String),
      (call_agent ⟨[register_agent 1 "a" [] "http://a" 0 100], []⟩ 1
        .timeout 10).2 =
        commitCall ⟨[register_agent 1 "a" [] "http://a" 0 100], []⟩
          (apply_call_metrics (register_agent 1 "a" [] "http://a" 0 100) s
            (some 10) (some ((latency_sample_count
              ⟨[register_agent 1 "a" [] "http://a" 0 100], []⟩ 1 : Nat) : Int)))
          (log_call 1 s (some 10) lmsg) ∧
      (call_agent ⟨[register_agent 1 "a" [] "http://a" 0 100], []⟩ 1
        .timeout 10).2.call_logs.length = 0 + 1) ∧
    call_agent ⟨[register_agent 1 "a" [] "http://a" 0 100], []⟩ 2 .timeout 10 =
      (.httpError 404 "Agent not found.",
        ⟨[register_agent 1 "a" [] "http://a" 0 100], []⟩) ∧
    call_endpoint none "dev-secret-key" ⟨120, 60, []⟩ 0
      ⟨[register_agent 1 "a" [] "http://a" 0 100], []⟩ 1 .timeout 10 =
      some (.httpError 401 "Invalid or missing API key.", ⟨120, 60, []⟩,
        ⟨[register_agent 1 "a" [] "http://a" 0 100], []⟩) ∧
    call_endpoint (some "dev-secret-key") "dev-secret-key"
      ⟨1, 60, [("dev-secret-key", [0])]⟩ 0
      ⟨[register_agent 1 "a" [] "http://a" 0 100], []⟩ 1 .timeout 10 =
      some (.httpError 429 "Rate limit exceeded.",
        ⟨1, 60, [("dev-secret-key", [0])]⟩,
        ⟨[register_agent 1 "a" [] "http://a" 0 100], []⟩) := by
  refine ⟨?_, ?_, ?_, ?_⟩
  · have h := c3_outcome_accounting.1
      ⟨[register_agent 1 "a" [] "http://a" 0 100], []⟩ 1
      (register_agent 1 "a" [] "http://a" 0 100) .timeout 10 rfl
    simpa [register_agent] using h
  · exact c3_outcome_accounting.2.1
      ⟨[register_agent 1 "a" [] "http://a" 0 100], []⟩ 2 .timeout 10 rfl
  · exact c3_outcome_accounting.2.2.1 none "dev-secret-key" ⟨120, 60, []⟩ 0
      ⟨[register_agent 1 "a" [] "http://a" 0 100], []⟩ 1 .timeout 10 rfl
  · exact c3_outcome_accounting.2.2.2 "dev-secret-key" "dev-secret-key"
      ⟨1, 60, [("dev-secret-key", [0])]⟩ ⟨1, 60, [("dev-secret-key", [0])]⟩
      0 60 ⟨[register_agent 1 "a" [] "http://a" 0 100], []⟩ 1 .timeout 10
      (by simp [get_api_key])
      (by simp [InMemoryRateLimiter.allow, getBucket, setBucket, pruneBucket,
        pyTrunc]
          norm_num)

lemma latValLE_trans {x y z : Option ℚ} (h1 : latValLE x y = true)
    (h2 : latValLE y z = true) : latValLE x z = true := by
  cases x <;> cases y <;> cases z <;> simp [latValLE] at * <;> linarith

lemma latValLE_total (x y : Option ℚ) : latValLE x y = true ∨ latValLE y x = true := by
  cases x <;> cases y <;> simp [latValLE] <;> exact le_total _ _

lemma searchKeyLE_iff (a b : Agent) : searchKeyLE a b = true ↔
    (b.reputation_score < a.reputation_score ∨
     (a.reputation_score = b.reputation_score ∧
      (a.price_per_call < b.price_per_call ∨
       (a.price_per_call = b.price_per_call ∧
        latValLE (latency_sort_value a) (latency_sort_value b) = true)))) := by
  unfold searchKeyLE
  split_ifs with h1 h2
  · simp [h1, h2, lt_irrefl]
  · have hlt : a.price_per_call ≤ b.price_per_call ↔ a.price_per_call < b.price_per_call :=
      ⟨fun hle => lt_of_le_of_ne hle h2, le_of_lt⟩
    simp [h1, h2, hlt]
  · simp [h1]

lemma searchKeyLE_trans (a b c : Agent) (hab : searchKeyLE a b = true)
    (hbc : searchKeyLE b c = true) : searchKeyLE a c = true := by
  rw [searchKeyLE_iff] at *
  rcases hab with h | ⟨he, hab2⟩ <;> rcases hbc with h' | ⟨he', hbc2⟩
  · exact Or.inl (by linarith)
  · exact Or.inl (by rw [← he']; exact h)
  · exact Or.inl (by rw [he]; exact h')
  · right
    refine ⟨he.trans he', ?_⟩
    rcases hab2 with hp | ⟨hpe, hlat⟩ <;> rcases hbc2 with hp' | ⟨hpe', hlat'⟩
    · exact Or.inl (by linarith)
    · exact Or.inl (by rw [← hpe']; exact hp)
    · exact Or.inl (by rw [hpe]; exact hp')
    · exact Or.inr ⟨hpe.trans hpe', latValLE_trans hlat hlat'⟩

lemma searchKeyLE_total (a b : Agent) : searchKeyLE a b || searchKeyLE b a := by
  simp only [Bool.or_eq_true, searchKeyLE_iff]
  rcases lt_trichotomy a.reputation_score b.reputation_score with h | h | h
  · exact Or.inr (Or.inl h)
  · rcases lt_trichotomy a.price_per_call b.price_per_call with hp | hp | hp
    · exact Or.inl (Or.inr ⟨h, Or.inl hp⟩)
    · rcases latValLE_total (latency_sort_value a) (latency_sort_value b) with hl | hl
      · exact Or.inl (Or.inr ⟨h, Or.inr ⟨hp, hl⟩⟩)
      · exact Or.inr (Or.inr ⟨h.symm, Or.inr ⟨hp.symm, hl⟩⟩)
    · exact Or.inr (Or.inr ⟨h.symm, Or.inl hp⟩)
  · exact Or.inl (Or.inl h)

/-- The filter of the claim: the AND of the three optional filters
(skill list membership, price cap, score floor). -/
def passesFilters (skill : Option String) (mp ms : Option ℚ) (a : Agent) : Bool :=
  (match skill with | none => true | some s => a.skills.contains s) &&
  (match mp with | none => true | some m => decide (a.price_per_call ≤ m)) &&
  (match ms with | none => true | some m => decide (m ≤ a.reputation_score))

lemma search_agents_eq (agents : List Agent) (skill : Option String)
    (mp ms : Option ℚ) (hsk : skill ≠ some "") :
    search_agents agents skill mp ms =
      (agents.filter (passesFilters skill mp ms)).mergeSort searchKeyLE := by
  have hfc : ∀ (l : List Agent) (p q : Agent → Bool),
      (l.filter q).filter p = l.filter (fun a => q a && p a) := by
    intro l p q
    rw [List.filter_filter]
    exact List.filter_congr (fun a _ => Bool.and_comm _ _)
  cases skill with
  | none =>
    cases mp <;> cases ms
    · simp only [search_agents]
      have h0 : List.filter (passesFilters none none none) agents = agents := by
        have h1 : List.filter (passesFilters none none none) agents
            = List.filter (fun _ => true) agents :=
          List.filter_congr (fun a _ => rfl)
        rw [h1, List.filter_true]
      rw [h0]
    · simp only [search_agents]
      congr 1 <;> first
        | rfl
        | exact (List.filter_congr (fun (a : Agent) _ => by
            simp [passesFilters, Bool.and_assoc])).symm
    · simp only [search_agents]
      congr 1 <;> first
        | rfl
        | exact (List.filter_congr (fun (a : Agent) _ => by
            simp [passesFilters, Bool.and_assoc])).symm
    · simp only [search_agents]
      rw [hfc]
      congr 1 <;> first
        | rfl
        | exact (List.filter_congr (fun (a : Agent) _ => by
            simp [passesFilters, Bool.and_assoc])).symm
  | some s =>
    have hs : ¬ s = "" := fun h => hsk (by rw [h])
    cases mp <;> cases ms
    · simp only [search_agents, if_neg hs]
      congr 1 <;> first
        | rfl
        | exact (List.filter_congr (fun (a : Agent) _ => by
            simp [passesFilters, Bool.and_assoc])).symm
    · simp only [search_agents, if_neg hs]
      rw [hfc]
      congr 1 <;> first
        | rfl
        | exact (List.filter_congr (fun (a : Agent) _ => by
            simp [passesFilters, Bool.and_assoc])).symm
    · simp only [search_agents, if_neg hs]
      rw [hfc]
      congr 1 <;> first
        | rfl
        | exact (List.filter_congr (fun (a : Agent) _ => by
            simp [passesFilters, Bool.and_assoc])).symm
    · simp only [search_agents, if_neg hs]
      rw [hfc, hfc]
      congr 1 <;> first
        | rfl
        | exact (List.filter_congr (fun (a : Agent) _ => by
            simp [passesFilters, Bool.and_assoc])).symm

lemma perm_pair_cases {α : Type} {l : List α} {a b : α} (h : l.Perm [a, b]) :
    l = [a, b] ∨ l = [b, a] := by
  have hlen : l.length = 2 := by simpa using h.length_eq
  match l, hlen with
  | [x, y], _ =>
    have hx : x = a ∨ x = b := by
      have hm : x ∈ [a, b] := h.subset (by simp)
      simpa using hm
    have hy : y = a ∨ y = b := by
      have hm : y ∈ [a, b] := h.subset (by simp)
      simpa using hm
    rcases hx with hxa | hxb
    · rcases hy with hya | hyb
      · rw [hxa, hya] at h
        have hba : a = b := by simpa using h.cons_inv
        exact Or.inl (by rw [hxa, hya, ← hba])
      · exact Or.inl (by rw [hxa, hyb])
    · rcases hy with hya | hyb
      · exact Or.inr (by rw [hxb, hya])
      · rw [hxb, hyb] at h
        have hab2 : a = b := by
          have hm : a ∈ [b, b] := h.symm.subset (by simp)
          simpa using hm
        exact Or.inl (by rw [hxb, hyb, hab2])

def exampleAgentA : Agent :=
  { register_agent 1 "A" ["x"] "http://a" (2/1000) 1000 with
      reputation_score := 9/10, avg_latency := 250 }

def exampleAgentB : Agent :=
  { register_agent 2 "B" ["x"] "http://b" (1/1000) 1000 with
      reputation_score := 9/10, avg_latency := 300 }


/-- C10: searching with `skill` equal to the empty string behaves exactly
as if no skill parameter had been supplied — `if skill:` is Python
truthiness, so the skill filter is not applied at all. -/
theorem c10_empty_skill_no_filter (agents : List Agent) (mp ms : Option ℚ) :
    search_agents agents (some "") mp ms = search_agents agents none mp ms := by
  simp [search_agents]

/-- Counterexample to C4 as stated: with `skill = some ""` the agent whose
skill list does not contain the empty string is returned anyway — the
skill-containment filter is not applied for an empty skill. -/
theorem c4_search_counterexample :
    search_agents [register_agent 1 "a" ["x"] "http://a" 0 100]
      (some "") none none = [register_agent 1 "a" ["x"] "http://a" 0 100] ∧
    ((register_agent 1 "a" ["x"] "http://a" 0 100).skills.contains "") = false := by
  constructor
  · simp [search_agents]
  · rfl

/-- C4 (amended): for every list of agents and every combination of the
optional query parameters in which the supplied skill, if any, is
non-empty (an empty skill applies no filter at all), search returns
exactly the agents passing the AND of the supplied filters, stably sorted
ascending by the composite key `(-reputation_score, price_per_call,
latency_tiebreak)` with `avg_latency = 0` playing `+∞`; consequently among
agents tied on reputation and price no zero-latency agent precedes a
positive-latency agent, and in particular A(price 0.002, reputation 0.9,
avg_latency 250) and B(price 0.001, reputation 0.9, avg_latency 300) are
ordered `[B, A]`. -/
theorem c4_search_ranking :
    (∀ (agents : List Agent) (skill : Option String) (mp ms : Option ℚ),
      skill ≠ some "" →
      ((∀ x : Agent, x ∈ search_agents agents skill mp ms ↔
          x ∈ agents ∧ passesFilters skill mp ms x = true) ∧
       (search_agents agents skill mp ms).Perm
         (agents.filter (passesFilters skill mp ms)) ∧
       (search_agents agents skill mp ms).Pairwise
         (fun x y => searchKeyLE x y = true) ∧
       (∀ x y : Agent, searchKeyLE x y = true →
         [x, y].Sublist (agents.filter (passesFilters skill mp ms)) →
         [x, y].Sublist (search_agents agents skill mp ms)) ∧
       (search_agents agents skill mp ms).Pairwise
         (fun x y => x.reputation_score = y.reputation_score →
           x.price_per_call = y.price_per_call →
           ¬ x.avg_latency > 0 → ¬ y.avg_latency > 0))) ∧
    search_agents [exampleAgentA, exampleAgentB] none none none
      = [exampleAgentB, exampleAgentA] := by
  constructor
  · intro agents skill mp ms hsk
    have heq := search_agents_eq agents skill mp ms hsk
    have hsorted : (search_agents agents skill mp ms).Pairwise
        (fun x y => searchKeyLE x y = true) := by
      rw [heq]
      exact List.sorted_mergeSort searchKeyLE_trans searchKeyLE_total _
    refine ⟨?_, ?_, hsorted, ?_, ?_⟩
    · intro x
      rw [heq, List.mem_mergeSort, List.mem_filter]
    · rw [heq]
      exact List.mergeSort_perm _ _
    · intro x y hxy hsub
      rw [heq]
      exact List.pair_sublist_mergeSort searchKeyLE_trans searchKeyLE_total hxy hsub
    · refine hsorted.imp ?_
      intro x y hxy hrep hprice hxlat hylat
      rw [searchKeyLE_iff] at hxy
      rcases hxy with h | ⟨-, h2⟩
      · rw [hrep] at h
        exact absurd h (lt_irrefl _)
      rcases h2 with h | ⟨-, hlat⟩
      · rw [hprice] at h
        exact absurd h (lt_irrefl _)
      · unfold latency_sort_value at hlat
        rw [if_neg hxlat, if_pos hylat] at hlat
        simp [latValLE] at hlat
  · have hperm : (search_agents [exampleAgentA, exampleAgentB] none none none).Perm
        [exampleAgentA, exampleAgentB] := by
      simp only [search_agents]
      exact List.mergeSort_perm _ _
    have hsorted : (search_agents [exampleAgentA, exampleAgentB] none none
        none).Pairwise (fun x y => searchKeyLE x y = true) := by
      simp only [search_agents]
      exact List.sorted_mergeSort searchKeyLE_trans searchKeyLE_total _
    have hAB : ¬ searchKeyLE exampleAgentA exampleAgentB = true := by
      rw [searchKeyLE_iff]
      simp [exampleAgentA, exampleAgentB, register_agent]
      norm_num
    rcases perm_pair_cases hperm with hcase | hcase
    · rw [hcase] at hsorted
      exact absurd (List.rel_of_pairwise_cons hsorted (by simp)) hAB
    · exact hcase

/-- Witness for the amended C4: the five conjuncts instantiated on a
concrete agent list with a supplied (non-empty) skill. -/
theorem c4_search_ranking_witness :
    (∀ x : Agent, x ∈ search_agents [exampleAgentA, exampleAgentB]
        (some "x") none none ↔
      x ∈ [exampleAgentA, exampleAgentB] ∧
        passesFilters (some "x") none none x = true) ∧
    (search_agents [exampleAgentA, exampleAgentB] (some "x") none none).Perm
      ([exampleAgentA, exampleAgentB].filter (passesFilters (some "x") none none)) ∧
    (search_agents [exampleAgentA, exampleAgentB] (some "x") none
      none).Pairwise (fun x y => searchKeyLE x y = true) ∧
    (∀ x y : Agent, searchKeyLE x y = true →
      [x, y].Sublist ([exampleAgentA, exampleAgentB].filter
        (passesFilters (some "x") none none)) →
      [x, y].Sublist (search_agents [exampleAgentA, exampleAgentB]
        (some "x") none none)) ∧
    (search_agents [exampleAgentA, exampleAgentB] (some "x") none
      none).Pairwise (fun x y => x.reputation_score = y.reputation_score →
        x.price_per_call = y.price_per_call →
        ¬ x.avg_latency > 0 → ¬ y.avg_latency > 0) :=
  c4_search_ranking.1 [exampleAgentA, exampleAgentB] (some "x") none none
    (by simp)
